import Mathlib

/-!
# Elasticsearch plugin: parse-response duration instrumentation

A shallow embedding of `pkg/tsdb/elasticsearch/instrumentation/instrumentation.go`.

The Go file holds one package-level histogram vector and one function that records a
duration into it, with a trace exemplar when the context carries a sampled trace. The
global variable becomes an explicit `HistogramVec` state that the function takes and
returns; a Go panic becomes the error side of `Except Panic`.

The function is embedded in two readings.

* The exact reading, at the top level: seconds, bucket bounds and the running sum are
  exact rationals, and a status is a text. It carries the statements about counts,
  buckets, exemplars and labels.
* The machine reading, in the namespace `Machine`: seconds, bounds and sum are float64
  values (given by the rational each of them stands for, rounded to nearest, ties to
  even), and a status can be any sequence of bytes. It carries the statements about the
  sum and about panics.

In both, the `uint64` counters are natural numbers. The histogram, the vector and the check
of label values belong to the metrics client library and the trace look-up to the tracing
package; neither is in the embedded file, and their definitions below say so. The limit the
client library puts on the length of exemplar labels is not modelled, nor is the time stamp
of an exemplar.
-/

namespace Instrumentation

/-! ## Values of the standard library and of the tracing package -/

/-- Nanoseconds per second, `time.Second`; a `time.Duration` is a count of nanoseconds. -/
def Second : Int := 1000000000

/-- `time.Duration.Seconds`: `sec := d / Second; nsec := d % Second;
return float64(sec) + float64(nsec)/1e9`, with Go's truncating division, in exact
arithmetic. -/
def Seconds (d : Int) : ℚ :=
  ((Int.tdiv d Second : Int) : ℚ) + ((Int.tmod d Second : Int) : ℚ) / 1e9

/-- Span data carried by a request context. -/
structure SpanContext where
  TraceID : String
  Sampled : Bool
deriving DecidableEq, Repr

/-- A `context.Context`, reduced to the span that is active in it, if any. -/
structure Context where
  span : Option SpanContext
deriving DecidableEq, Repr

/-- Modelled from the spec: `tracing.TraceIDFromContext` lives in `pkg/infra/tracing`,
outside this file. It is a pure lookup that returns the active trace identifier when a
span is active in the context (and, with the only-if-sampled flag set, sampled), and the
empty string otherwise. -/
def TraceIDFromContext (ctx : Context) (requireSampled : Bool) : String :=
  match ctx.span with
  | none => ""
  | some sc => if requireSampled && !sc.Sampled then "" else sc.TraceID

/-! ## The histogram of the metrics client library -/

/-- The failures that reach the caller as a Go panic. -/
inductive Panic where
  /-- `WithLabelValues` got a number of values different from the number of label names. -/
  | inconsistentCardinality
  /-- A type assertion `x.(T)` on a value whose dynamic type does not implement `T`. -/
  | interfaceConversion
  /-- `WithLabelValues` got a label value that is not valid UTF-8. -/
  | invalidLabelValue
deriving DecidableEq, Repr

/-- An exemplar: the observed value and its label pairs (the timestamp is left out). -/
structure Exemplar where
  Value : ℚ
  Labels : List (String × String)
deriving DecidableEq, Repr

/-- The fields of `prometheus.HistogramOpts` that the source sets. -/
structure HistogramOpts where
  Namespace : String
  Name : String
  Help : String
  Buckets : List ℚ
deriving DecidableEq, Repr

/-- Modelled from the spec: one labelled histogram series of the client library (which is
not part of this file): the ordered upper bounds, one counter per bound, the sum and count
of all observations, and one exemplar slot per bucket plus one for the implicit +Inf
bucket. -/
structure histogram where
  upperBounds : List ℚ
  buckets : List Nat
  sum : ℚ
  count : Nat
  exemplars : List (Option Exemplar)
deriving DecidableEq, Repr

/-- A value of the interface type `prometheus.Observer`: the series behind it, and whether
its dynamic type also implements `prometheus.ExemplarObserver`. -/
structure Observer where
  h : histogram
  exemplarObserver : Bool
deriving DecidableEq, Repr

/-- A `*prometheus.HistogramVec`: its definition and the series created so far, keyed by
the label values in the order of the label names. -/
structure HistogramVec where
  opts : HistogramOpts
  labelNames : List String
  series : List String → Option Observer

/-- Modelled from the spec: a fresh series of a histogram definition, with every counter at
zero and no exemplar. -/
def newHistogram (opts : HistogramOpts) : histogram :=
  { upperBounds := opts.Buckets
    buckets := List.replicate opts.Buckets.length 0
    sum := 0
    count := 0
    exemplars := List.replicate (opts.Buckets.length + 1) none }

/-- `prometheus.NewHistogramVec`: a vector without any series. -/
def NewHistogramVec (opts : HistogramOpts) (labelNames : List String) : HistogramVec :=
  { opts := opts, labelNames := labelNames, series := fun _ => none }

/-- Modelled from the spec: the bucket an observation falls into is the first one whose
upper bound is at least the value; past the last bound it is the +Inf bucket, whose index
is the number of bounds. -/
def findBucket : List ℚ → ℚ → Nat
  | [], _ => 0
  | bound :: rest, v => if v ≤ bound then 0 else findBucket rest v + 1

/-- Add one to the counter at index `i`. -/
def incr : List Nat → Nat → List Nat
  | [], _ => []
  | c :: cs, 0 => (c + 1) :: cs
  | c :: cs, i + 1 => c :: incr cs i

/-- Modelled from the spec: recording a value into a bucket adds one to the counter of
that bucket (the +Inf bucket has no counter of its own), adds the value to the sum, in
exact arithmetic, and one to the count. -/
def histogram.observe (h : histogram) (v : ℚ) (bucket : Nat) : histogram :=
  { h with
    buckets := if bucket < h.buckets.length then incr h.buckets bucket else h.buckets
    sum := h.sum + v
    count := h.count + 1 }

/-- Modelled from the spec: the exemplar slot of a bucket keeps the latest exemplar
stored for it. -/
def histogram.updateExemplar (h : histogram) (v : ℚ) (bucket : Nat)
    (l : List (String × String)) : histogram :=
  { h with exemplars := h.exemplars.set bucket (some { Value := v, Labels := l }) }

/-- Modelled from the spec: `Observe` is a plain observation. -/
def histogram.Observe (h : histogram) (v : ℚ) : histogram :=
  h.observe v (findBucket h.upperBounds v)

/-- Modelled from the spec: `ObserveWithExemplar` is the observation, followed by storing
the exemplar in the bucket the value falls into. -/
def histogram.ObserveWithExemplar (h : histogram) (v : ℚ) (e : List (String × String)) :
    histogram :=
  (h.observe v (findBucket h.upperBounds v)).updateExemplar v (findBucket h.upperBounds v) e

/-- Modelled from the spec: the count a scrape reports for the bucket at index `i` is
cumulative, the number of observations at or below its upper bound. -/
def histogram.cumulativeCount (h : histogram) (i : Nat) : Nat :=
  (h.buckets.take (i + 1)).sum

/-- Replace the series stored under one key. -/
def HistogramVec.store (m : HistogramVec) (lvs : List String) (o : Observer) : HistogramVec :=
  { m with series := fun k => if k = lvs then some o else m.series k }

/-- Modelled from the spec: `WithLabelValues` selects the series of a label assignment,
creating it on first use, and panics when the number of values is not the number of label
names. A series created by a histogram vector supports exemplars. -/
def HistogramVec.WithLabelValues (m : HistogramVec) (lvs : List String) :
    Except Panic (HistogramVec × Observer) :=
  if lvs.length ≠ m.labelNames.length then
    .error .inconsistentCardinality
  else
    match m.series lvs with
    | some o => .ok (m, o)
    | none =>
      let o : Observer := { h := newHistogram m.opts, exemplarObserver := true }
      .ok (m.store lvs o, o)

/-- The label pairs of a series: each label name with the value at the same position. -/
def HistogramVec.labelPairs (m : HistogramVec) (lvs : List String) : List (String × String) :=
  m.labelNames.zip lvs

/-! ## The source file -/

/-- The options given to `promauto.NewHistogramVec` in the source. -/
def pluginParsingResponseDurationSecondsOpts : HistogramOpts :=
  { Namespace := "grafana"
    Name := "elasticsearch_plugin_parse_response_duration_seconds"
    Help := "Duration of Elasticsearch parsing the response in seconds"
    Buckets := [0.001, 0.0025, 0.005, 0.0075, 0.01, 0.02, 0.03, 0.04, 0.05, 0.075, 0.1,
      0.25, 0.5, 1, 5, 10, 25] }

/-- The label names given to `promauto.NewHistogramVec` in the source. -/
def pluginParsingResponseDurationSecondsLabels : List String := ["status", "endpoint"]

/-- The package-level variable, as it is once the package is loaded. -/
def pluginParsingResponseDurationSeconds : HistogramVec :=
  NewHistogramVec pluginParsingResponseDurationSecondsOpts
    pluginParsingResponseDurationSecondsLabels

/-- The endpoint label value. -/
abbrev EndpointQueryData : String := "queryData"

/-- The function of the source file. The vector `m` is the current value of the global
variable; the result is its value after the call, or the panic the call ends in. The
series handed out by `WithLabelValues` is a pointer into the vector, so the observation
is written back under the same key. -/
def UpdatePluginParsingResponseDurationSeconds (m : HistogramVec) (ctx : Context)
    (duration : Int) (status : String) : Except Panic HistogramVec :=
  match m.WithLabelValues [status, EndpointQueryData] with
  | .error p => .error p
  | .ok (m1, histogram) =>
    let traceID := TraceIDFromContext ctx true
    if traceID ≠ "" then
      if histogram.exemplarObserver then
        .ok (m1.store [status, EndpointQueryData]
          { histogram with
            h := histogram.h.ObserveWithExemplar (Seconds duration) [("traceID", traceID)] })
      else
        .error .interfaceConversion
    else
      .ok (m1.store [status, EndpointQueryData]
        { histogram with h := histogram.h.Observe (Seconds duration) })

/-- The vector states the program can be in: the freshly created vector, and every state
a call of the recording function leads to. -/
inductive Reachable : HistogramVec → Prop where
  | init : Reachable pluginParsingResponseDurationSeconds
  | step {m m1 : HistogramVec} (ctx : Context) (duration : Int) (status : String) :
      Reachable m →
      UpdatePluginParsingResponseDurationSeconds m ctx duration status = .ok m1 →
      Reachable m1

/-! ## What a scrape shows of one series -/

/-- Observation count of a series; a series not yet created has none. -/
def seriesCount (m : HistogramVec) (lvs : List String) : Nat :=
  match m.series lvs with
  | none => 0
  | some o => o.h.count

/-- Sum of the observations of a series. -/
def seriesSum (m : HistogramVec) (lvs : List String) : ℚ :=
  match m.series lvs with
  | none => 0
  | some o => o.h.sum

/-- Cumulative count of the bucket at index `i` of a series. -/
def seriesBucket (m : HistogramVec) (lvs : List String) (i : Nat) : Nat :=
  match m.series lvs with
  | none => 0
  | some o => o.h.cumulativeCount i

/-- The exemplar held by the bucket at index `i` of a series, if any. -/
def seriesExemplar (m : HistogramVec) (lvs : List String) (i : Nat) : Option Exemplar :=
  match m.series lvs with
  | none => none
  | some o => (o.h.exemplars.get? i).join


/-! ## The state after a call, and the invariant of the reachable states -/

/-- The observer a call obtains for a key: the stored series, or a fresh one. -/
def HistogramVec.obtained (m : HistogramVec) (lvs : List String) : Observer :=
  (m.series lvs).getD { h := newHistogram m.opts, exemplarObserver := true }

/-- The state a call leads to when it does not panic. -/
def recorded (m : HistogramVec) (ctx : Context) (duration : Int) (status : String) :
    HistogramVec :=
  m.store [status, EndpointQueryData]
    { m.obtained [status, EndpointQueryData] with
      h := if TraceIDFromContext ctx true ≠ "" then
          (m.obtained [status, EndpointQueryData]).h.ObserveWithExemplar (Seconds duration)
            [("traceID", TraceIDFromContext ctx true)]
        else (m.obtained [status, EndpointQueryData]).h.Observe (Seconds duration) }

/-- What holds of every reachable vector: the definition is the one of the source, and each
series is keyed by a status and the query-data endpoint, supports exemplars, and has the
configured bounds with one counter per bound and one exemplar slot more. -/
structure Inv (m : HistogramVec) : Prop where
  opts : m.opts = pluginParsingResponseDurationSecondsOpts
  labels : m.labelNames = pluginParsingResponseDurationSecondsLabels
  wf : ∀ lvs o, m.series lvs = some o →
    (∃ s, lvs = [s, EndpointQueryData]) ∧ o.exemplarObserver = true ∧
    o.h.upperBounds = pluginParsingResponseDurationSecondsOpts.Buckets ∧
    o.h.buckets.length = pluginParsingResponseDurationSecondsOpts.Buckets.length ∧
    o.h.exemplars.length = pluginParsingResponseDurationSecondsOpts.Buckets.length + 1

/-! ## float64 arithmetic -/

/-- Rounding of a rational to the nearest integer, a tie going to the even one. -/
def roundHalfEven (q : ℚ) : ℤ :=
  if q - ⌊q⌋ < 1 / 2 then ⌊q⌋
  else if 1 / 2 < q - ⌊q⌋ then ⌊q⌋ + 1
  else if ⌊q⌋ % 2 = 0 then ⌊q⌋ else ⌊q⌋ + 1

/-- The binary exponent of the last place a float64 near `q` has: 52 places below the
leading bit of `q`, and never below -1074, the exponent of the subnormal numbers. -/
def float64Exponent (q : ℚ) : ℤ := max (Int.log 2 |q| - 52) (-1074)

/-- The float64 nearest to `q` (IEEE 754 binary64, rounding to nearest, ties to even), given
as the rational it stands for. Every float64 operation of the program is the exact
operation followed by this rounding. Overflow to an infinity is left out: no sum of fewer
than 2^64 durations comes near the largest float64. -/
def float64 (q : ℚ) : ℚ :=
  roundHalfEven (q / 2 ^ float64Exponent q) * 2 ^ float64Exponent q

/-! ## The machine reading -/

namespace Machine

/-- `time.Duration.Seconds` as the program computes it: `sec := d / Second;
nsec := d % Second; return float64(sec) + float64(nsec)/1e9`, each conversion, the division
and the addition rounded to float64. -/
def Seconds (d : Int) : ℚ :=
  float64 (float64 ((Int.tdiv d Second : Int) : ℚ) +
    float64 (float64 ((Int.tmod d Second : Int) : ℚ) / 1e9))

/-- Modelled from the spec: recording a value into a bucket adds one to the counter of
that bucket and one to the count, and adds the value to the sum; the sum is a float64, so
the addition is rounded. -/
def observe (h : histogram) (v : ℚ) (bucket : Nat) : histogram :=
  { h with
    buckets := if bucket < h.buckets.length then incr h.buckets bucket else h.buckets
    sum := float64 (h.sum + v)
    count := h.count + 1 }

/-- Modelled from the spec: `Observe` is a plain observation. -/
def Observe (h : histogram) (v : ℚ) : histogram :=
  observe h v (findBucket h.upperBounds v)

/-- Modelled from the spec: `ObserveWithExemplar` is the observation, followed by storing
the exemplar in the bucket the value falls into. -/
def ObserveWithExemplar (h : histogram) (v : ℚ) (e : List (String × String)) : histogram :=
  (observe h v (findBucket h.upperBounds v)).updateExemplar v (findBucket h.upperBounds v) e

/-- The options given to `promauto.NewHistogramVec` in the source, each bucket bound being
the float64 that its literal denotes. -/
def pluginParsingResponseDurationSecondsOpts : HistogramOpts :=
  { Instrumentation.pluginParsingResponseDurationSecondsOpts with
    Buckets := Instrumentation.pluginParsingResponseDurationSecondsOpts.Buckets.map float64 }

/-- The package-level variable, as it is once the package is loaded. -/
def pluginParsingResponseDurationSeconds : HistogramVec :=
  NewHistogramVec Machine.pluginParsingResponseDurationSecondsOpts
    pluginParsingResponseDurationSecondsLabels

/-- The function of the source file in float64 arithmetic, for a status that is a text. -/
def UpdatePluginParsingResponseDurationSeconds (m : HistogramVec) (ctx : Context)
    (duration : Int) (status : String) : Except Panic HistogramVec :=
  match m.WithLabelValues [status, EndpointQueryData] with
  | .error p => .error p
  | .ok (m1, histogram) =>
    let traceID := TraceIDFromContext ctx true
    if traceID ≠ "" then
      if histogram.exemplarObserver then
        .ok (m1.store [status, EndpointQueryData]
          { histogram with
            h := ObserveWithExemplar histogram.h (Seconds duration) [("traceID", traceID)] })
      else
        .error .interfaceConversion
    else
      .ok (m1.store [status, EndpointQueryData]
        { histogram with h := Observe histogram.h (Seconds duration) })

/-- Whether a byte continues a UTF-8 sequence. -/
def continuation (b : Nat) : Bool := 0x80 ≤ b && b ≤ 0xBF

/-- The text a Go string holds, when its bytes are valid UTF-8 (`utf8.ValidString`): no
stray or missing continuation byte, no overlong form, no surrogate, nothing above
U+10FFFF. -/
def decodeUTF8 : List Nat → Option (List Char)
  | [] => some []
  | b0 :: bs =>
    if b0 < 0x80 then (decodeUTF8 bs).map (Char.ofNat b0 :: ·)
    else
      match bs with
      | [] => none
      | b1 :: bs1 =>
        if 0xC2 ≤ b0 ∧ b0 ≤ 0xDF then
          if continuation b1 then
            (decodeUTF8 bs1).map (Char.ofNat ((b0 - 0xC0) * 64 + (b1 - 0x80)) :: ·)
          else none
        else
          match bs1 with
          | [] => none
          | b2 :: bs2 =>
            if 0xE0 ≤ b0 ∧ b0 ≤ 0xEF then
              if (if b0 = 0xE0 then 0xA0 else 0x80) ≤ b1 ∧
                  b1 ≤ (if b0 = 0xED then 0x9F else 0xBF) ∧ continuation b2 then
                (decodeUTF8 bs2).map
                  (Char.ofNat ((b0 - 0xE0) * 4096 + (b1 - 0x80) * 64 + (b2 - 0x80)) :: ·)
              else none
            else
              match bs2 with
              | [] => none
              | b3 :: bs3 =>
                if 0xF0 ≤ b0 ∧ b0 ≤ 0xF4 ∧
                    (if b0 = 0xF0 then 0x90 else 0x80) ≤ b1 ∧
                    b1 ≤ (if b0 = 0xF4 then 0x8F else 0xBF) ∧
                    continuation b2 ∧ continuation b3 then
                  (decodeUTF8 bs3).map
                    (Char.ofNat ((b0 - 0xF0) * 262144 + (b1 - 0x80) * 4096 +
                      (b2 - 0x80) * 64 + (b3 - 0x80)) :: ·)
                else none

/-- The function of the source file for a status given by its bytes, as a Go caller can
pass it. The client library (not part of this file, and the spec does not speak of it)
checks the label values inside `WithLabelValues`, the first statement of the function, which
panics when one is not valid UTF-8; for a valid status the call is the one on its text. -/
def UpdatePluginParsingResponseDurationSecondsBytes (m : HistogramVec) (ctx : Context)
    (duration : Int) (status : List Nat) : Except Panic HistogramVec :=
  match decodeUTF8 status with
  | none => .error .invalidLabelValue
  | some text => UpdatePluginParsingResponseDurationSeconds m ctx duration (String.mk text)

/-- The vector states the program can be in: the freshly created vector, and every state
a call of the recording function leads to. -/
inductive Reachable : HistogramVec → Prop where
  | init : Reachable Machine.pluginParsingResponseDurationSeconds
  | step {m m1 : HistogramVec} (ctx : Context) (duration : Int) (status : List Nat) :
      Reachable m →
      UpdatePluginParsingResponseDurationSecondsBytes m ctx duration status = .ok m1 →
      Reachable m1

/-- The state a call leads to when it does not panic. -/
def recorded (m : HistogramVec) (ctx : Context) (duration : Int) (status : String) :
    HistogramVec :=
  m.store [status, EndpointQueryData]
    { m.obtained [status, EndpointQueryData] with
      h := if TraceIDFromContext ctx true ≠ "" then
          ObserveWithExemplar (m.obtained [status, EndpointQueryData]).h (Seconds duration)
            [("traceID", TraceIDFromContext ctx true)]
        else Observe (m.obtained [status, EndpointQueryData]).h (Seconds duration) }

/-- What holds of every reachable vector: it has the two label names of the source, and
every series in it supports exemplars. -/
structure Inv (m : HistogramVec) : Prop where
  labels : m.labelNames = pluginParsingResponseDurationSecondsLabels
  capable : ∀ lvs o, m.series lvs = some o → o.exemplarObserver = true

end Machine

/-! ## Arithmetic of the observed value -/

theorem Seconds_eq (d : Int) : Seconds d = (d : ℚ) / 1000000000 := by
  unfold Seconds Second
  have h := Int.tdiv_add_tmod d 1000000000
  have hq : ((1000000000 * Int.tdiv d 1000000000 + Int.tmod d 1000000000 : Int) : ℚ) = (d : ℚ) := by
    rw [h]
  push_cast at hq
  norm_num
  field_simp
  linarith

/-! ## Bucket search and counters -/

theorem findBucket_le_length (bounds : List ℚ) (v : ℚ) : findBucket bounds v ≤ bounds.length := by
  induction bounds with
  | nil => simp [findBucket]
  | cons b rest ih =>
    simp only [findBucket, List.length_cons]
    split
    · omega
    · omega

theorem findBucket_le_iff (bounds : List ℚ) (hs : bounds.Pairwise (· < ·)) (v : ℚ) :
    ∀ (i : Nat) (b : ℚ), bounds.get? i = some b → (findBucket bounds v ≤ i ↔ v ≤ b) := by
  induction bounds with
  | nil => intro i b h; simp at h
  | cons c rest ih =>
    intro i b h
    rw [List.pairwise_cons] at hs
    cases i with
    | zero =>
      simp at h
      subst h
      simp only [findBucket]
      split
      · simp [*]
      · simp [*]
    | succ j =>
      simp at h
      have hb : b ∈ rest := by
        have := List.getElem?_mem h
        exact this
      have hcb : c < b := hs.1 b hb
      simp only [findBucket]
      split
      · rename_i hvc
        constructor
        · intro _; linarith
        · intro _; omega
      · have := ih hs.2 j b (by simpa using h)
        constructor
        · intro hle; exact this.mp (by omega)
        · intro hvb; have := this.mpr hvb; omega

theorem length_incr (l : List Nat) (k : Nat) : (incr l k).length = l.length := by
  induction l generalizing k with
  | nil => simp [incr]
  | cons c cs ih =>
    cases k with
    | zero => simp [incr]
    | succ j => simp [incr, ih]

theorem sum_take_incr (l : List Nat) (k i : Nat) (hk : k < l.length) :
    ((incr l k).take (i + 1)).sum = (l.take (i + 1)).sum + (if k ≤ i then 1 else 0) := by
  induction l generalizing k i with
  | nil => simp at hk
  | cons c cs ih =>
    cases k with
    | zero => simp [incr]; omega
    | succ j =>
      simp only [List.length_cons, Nat.add_lt_add_iff_right] at hk
      cases i with
      | zero => simp [incr]
      | succ i2 =>
        simp only [incr, List.take_succ_cons, List.sum_cons, ih j i2 hk]
        simp only [Nat.add_le_add_iff_right]
        omega


/-! ## One call, computed -/

theorem store_store (m : HistogramVec) (lvs : List String) (o o1 : Observer) :
    (m.store lvs o).store lvs o1 = m.store lvs o1 := by
  unfold HistogramVec.store
  congr 1
  funext k
  by_cases hk : k = lvs <;> simp [hk]

theorem WithLabelValues_eq (m : HistogramVec) (lvs : List String)
    (hl : lvs.length = m.labelNames.length) :
    ∃ m1, m.WithLabelValues lvs = .ok (m1, m.obtained lvs) ∧
      ∀ o, m1.store lvs o = m.store lvs o := by
  unfold HistogramVec.WithLabelValues HistogramVec.obtained
  rw [if_neg (by simpa using hl)]
  cases hs : m.series lvs with
  | none => exact ⟨_, rfl, fun o => store_store m lvs _ o⟩
  | some o => exact ⟨_, rfl, fun _ => rfl⟩

theorem Update_eq (m : HistogramVec) (ctx : Context) (duration : Int) (status : String)
    (hl : m.labelNames.length = 2)
    (hc : (m.obtained [status, EndpointQueryData]).exemplarObserver = true ∨
      TraceIDFromContext ctx true = "") :
    UpdatePluginParsingResponseDurationSeconds m ctx duration status =
      .ok (recorded m ctx duration status) := by
  obtain ⟨m1, h1, h2⟩ := WithLabelValues_eq m [status, EndpointQueryData] (by simp [hl])
  unfold UpdatePluginParsingResponseDurationSeconds recorded
  rw [h1]
  simp only [h2]
  by_cases ht : TraceIDFromContext ctx true = ""
  · simp [ht]
  · rcases hc with hc | hc
    · simp [ht, hc]
    · exact absurd hc ht

/-! ## The invariant of the reachable states -/

theorem Inv_init : Inv pluginParsingResponseDurationSeconds :=
  ⟨rfl, rfl, fun lvs o h => by simp [pluginParsingResponseDurationSeconds, NewHistogramVec] at h⟩

theorem Inv_obtained {m : HistogramVec} (hm : Inv m) (status : String) :
    (m.obtained [status, EndpointQueryData]).exemplarObserver = true ∧
    (m.obtained [status, EndpointQueryData]).h.upperBounds =
      pluginParsingResponseDurationSecondsOpts.Buckets ∧
    (m.obtained [status, EndpointQueryData]).h.buckets.length =
      pluginParsingResponseDurationSecondsOpts.Buckets.length ∧
    (m.obtained [status, EndpointQueryData]).h.exemplars.length =
      pluginParsingResponseDurationSecondsOpts.Buckets.length + 1 := by
  unfold HistogramVec.obtained
  cases hs : m.series [status, EndpointQueryData] with
  | none => simp [newHistogram, hm.opts]
  | some o => simpa using (hm.wf _ o hs).2

theorem Inv_labelNames_length {m : HistogramVec} (hm : Inv m) : m.labelNames.length = 2 := by
  rw [hm.labels]; rfl

theorem Inv_Update {m : HistogramVec} (hm : Inv m) (ctx : Context) (duration : Int)
    (status : String) :
    UpdatePluginParsingResponseDurationSeconds m ctx duration status =
      .ok (recorded m ctx duration status) :=
  Update_eq m ctx duration status (Inv_labelNames_length hm) (Or.inl (Inv_obtained hm status).1)

theorem Inv_recorded {m : HistogramVec} (hm : Inv m) (ctx : Context) (duration : Int)
    (status : String) : Inv (recorded m ctx duration status) := by
  obtain ⟨h1, h2, h3, h4⟩ := Inv_obtained hm status
  refine ⟨hm.opts, hm.labels, ?_⟩
  intro lvs o hs
  unfold Instrumentation.recorded HistogramVec.store at hs
  simp only at hs
  by_cases hk : lvs = [status, EndpointQueryData]
  · rw [if_pos hk] at hs
    injection hs with hs
    subst hs
    refine ⟨⟨status, hk⟩, h1, ?_, ?_, ?_⟩
    · split <;> simp [histogram.ObserveWithExemplar, histogram.Observe, histogram.observe,
        histogram.updateExemplar, h2]
    · split <;> simp only [histogram.ObserveWithExemplar, histogram.Observe, histogram.observe,
        histogram.updateExemplar] <;> split <;> simp [length_incr, h3]
    · split <;> simp [histogram.ObserveWithExemplar, histogram.Observe, histogram.observe,
        histogram.updateExemplar, h4]
  · rw [if_neg hk] at hs
    exact hm.wf lvs o hs

theorem Reachable_inv {m : HistogramVec} (hm : Reachable m) : Inv m := by
  induction hm with
  | init => exact Inv_init
  | step ctx duration status _ hstep ih =>
    rw [Inv_Update ih ctx duration status] at hstep
    injection hstep with hstep
    subst hstep
    exact Inv_recorded ih ctx duration status


/-! ## Reading a series after a call -/

theorem Buckets_pairwise :
    pluginParsingResponseDurationSecondsOpts.Buckets.Pairwise (· < ·) := by
  norm_num [pluginParsingResponseDurationSecondsOpts]

theorem recorded_series_key (m : HistogramVec) (ctx : Context) (duration : Int)
    (status : String) :
    (recorded m ctx duration status).series [status, EndpointQueryData] =
      some { m.obtained [status, EndpointQueryData] with
        h := if TraceIDFromContext ctx true ≠ "" then
            (m.obtained [status, EndpointQueryData]).h.ObserveWithExemplar (Seconds duration)
              [("traceID", TraceIDFromContext ctx true)]
          else (m.obtained [status, EndpointQueryData]).h.Observe (Seconds duration) } := by
  simp [recorded, HistogramVec.store]

theorem recorded_series_other (m : HistogramVec) (ctx : Context) (duration : Int)
    (status : String) (lvs : List String) (hk : lvs ≠ [status, EndpointQueryData]) :
    (recorded m ctx duration status).series lvs = m.series lvs := by
  simp [recorded, HistogramVec.store, hk]

theorem seriesCount_obtained (m : HistogramVec) (lvs : List String) :
    seriesCount m lvs = (m.obtained lvs).h.count := by
  unfold seriesCount HistogramVec.obtained
  cases m.series lvs <;> simp [newHistogram]

theorem seriesSum_obtained (m : HistogramVec) (lvs : List String) :
    seriesSum m lvs = (m.obtained lvs).h.sum := by
  unfold seriesSum HistogramVec.obtained
  cases m.series lvs <;> simp [newHistogram]

theorem seriesBucket_obtained (m : HistogramVec) (lvs : List String) (i : Nat) :
    seriesBucket m lvs i = (m.obtained lvs).h.cumulativeCount i := by
  unfold seriesBucket HistogramVec.obtained
  cases m.series lvs with
  | some o => simp
  | none =>
    simp only [Option.getD_none, histogram.cumulativeCount, newHistogram]
    symm
    apply List.sum_eq_zero
    intro x hx
    exact List.eq_of_mem_replicate (List.mem_of_mem_take hx)

theorem seriesExemplar_obtained (m : HistogramVec) (lvs : List String) (i : Nat) :
    seriesExemplar m lvs i = ((m.obtained lvs).h.exemplars.get? i).join := by
  unfold seriesExemplar HistogramVec.obtained
  cases m.series lvs with
  | some o => simp
  | none =>
    simp only [Option.getD_none, newHistogram]
    cases h : (List.replicate (m.opts.Buckets.length + 1) (none : Option Exemplar)).get? i with
    | none => rfl
    | some x =>
      have := List.eq_of_mem_replicate (List.getElem?_mem (by simpa using h))
      simp [this]

theorem count_after (m : HistogramVec) (ctx : Context) (duration : Int) (status : String) :
    seriesCount (recorded m ctx duration status) [status, EndpointQueryData] =
      seriesCount m [status, EndpointQueryData] + 1 := by
  rw [seriesCount_obtained m]
  simp only [seriesCount, recorded_series_key]
  split <;> simp [histogram.ObserveWithExemplar, histogram.Observe, histogram.observe,
    histogram.updateExemplar]

theorem sum_after (m : HistogramVec) (ctx : Context) (duration : Int) (status : String) :
    seriesSum (recorded m ctx duration status) [status, EndpointQueryData] =
      seriesSum m [status, EndpointQueryData] + (duration : ℚ) / 1000000000 := by
  rw [seriesSum_obtained m, ← Seconds_eq]
  simp only [seriesSum, recorded_series_key]
  split <;> simp [histogram.ObserveWithExemplar, histogram.Observe, histogram.observe,
    histogram.updateExemplar]

theorem cumulativeCount_observe (h : histogram) (v : ℚ) (i : Nat) (b : ℚ)
    (hs : h.upperBounds.Pairwise (· < ·)) (hl : h.buckets.length = h.upperBounds.length)
    (hb : h.upperBounds.get? i = some b) :
    (h.observe v (findBucket h.upperBounds v)).cumulativeCount i =
      h.cumulativeCount i + (if v ≤ b then 1 else 0) := by
  have hiff := findBucket_le_iff h.upperBounds hs v i b hb
  have hi : i < h.upperBounds.length := by
    by_contra hcon
    rw [List.get?_eq_none.mpr (by omega)] at hb
    exact Option.noConfusion hb
  simp only [histogram.observe, histogram.cumulativeCount]
  by_cases hlt : findBucket h.upperBounds v < h.buckets.length
  · rw [if_pos hlt, sum_take_incr _ _ _ hlt]
    by_cases hv : v ≤ b
    · rw [if_pos hv, if_pos (hiff.mpr hv)]
    · rw [if_neg hv, if_neg (fun hle => hv (hiff.mp hle))]
  · rw [if_neg hlt]
    have hv : ¬ v ≤ b := fun hv => by
      have := hiff.mpr hv
      omega
    rw [if_neg hv]
    rfl

theorem bucket_after {m : HistogramVec} (hm : Inv m) (ctx : Context) (duration : Int)
    (status : String) (i : Nat) (b : ℚ)
    (hb : pluginParsingResponseDurationSecondsOpts.Buckets.get? i = some b) :
    seriesBucket (recorded m ctx duration status) [status, EndpointQueryData] i =
      seriesBucket m [status, EndpointQueryData] i +
        (if (duration : ℚ) / 1000000000 ≤ b then 1 else 0) := by
  obtain ⟨_, h2, h3, _⟩ := Inv_obtained hm status
  rw [seriesBucket_obtained m, ← Seconds_eq]
  simp only [seriesBucket, recorded_series_key]
  have key := cumulativeCount_observe (m.obtained [status, EndpointQueryData]).h
    (Seconds duration) i b (by rw [h2]; exact Buckets_pairwise) (by rw [h2, h3])
    (by rw [h2]; exact hb)
  split
  · simpa [histogram.ObserveWithExemplar, histogram.updateExemplar, histogram.cumulativeCount]
      using key
  · simpa [histogram.Observe] using key


theorem exemplar_after_traced {m : HistogramVec} (hm : Inv m) (ctx : Context) (duration : Int)
    (status : String) (ht : TraceIDFromContext ctx true ≠ "") :
    seriesExemplar (recorded m ctx duration status) [status, EndpointQueryData]
        (findBucket pluginParsingResponseDurationSecondsOpts.Buckets (Seconds duration)) =
      some { Value := Seconds duration, Labels := [("traceID", TraceIDFromContext ctx true)] } := by
  obtain ⟨_, h2, _, h4⟩ := Inv_obtained hm status
  have hle := findBucket_le_length pluginParsingResponseDurationSecondsOpts.Buckets
    (Seconds duration)
  simp only [seriesExemplar, recorded_series_key, if_pos ht, histogram.ObserveWithExemplar,
    histogram.updateExemplar, histogram.observe, h2]
  rw [List.get?_eq_getElem?, List.getElem?_set_self (by rw [h4]; omega)]
  rfl

theorem exemplar_after_untraced (m : HistogramVec) (ctx : Context) (duration : Int)
    (status : String) (ht : TraceIDFromContext ctx true = "") (i : Nat) :
    seriesExemplar (recorded m ctx duration status) [status, EndpointQueryData] i =
      seriesExemplar m [status, EndpointQueryData] i := by
  rw [seriesExemplar_obtained m]
  simp [seriesExemplar, recorded_series_key, ht, histogram.Observe, histogram.observe]

theorem exemplar_after_elsewhere {m : HistogramVec} (hm : Inv m) (ctx : Context)
    (duration : Int) (status : String) (i : Nat)
    (hi : i ≠ findBucket pluginParsingResponseDurationSecondsOpts.Buckets (Seconds duration)) :
    seriesExemplar (recorded m ctx duration status) [status, EndpointQueryData] i =
      seriesExemplar m [status, EndpointQueryData] i := by
  obtain ⟨_, h2, _, _⟩ := Inv_obtained hm status
  rw [seriesExemplar_obtained m]
  simp only [seriesExemplar, recorded_series_key]
  split
  · simp only [histogram.ObserveWithExemplar, histogram.updateExemplar, histogram.observe, h2]
    rw [List.get?_eq_getElem?, List.get?_eq_getElem?, List.getElem?_set_ne (Ne.symm hi)]
  · simp [histogram.Observe, histogram.observe]

/-! ## The claims -/

/-- C2: in every reachable state, for every duration and every configured boundary `b`
(the one at index `i`), one call returns normally and raises the cumulative count of the
bucket of `b` by exactly one when `duration / 10^9 ≤ b`, and leaves it as it was when
`b < duration / 10^9`. -/
theorem bucket_counts_grow (m : HistogramVec) (hm : Reachable m) (ctx : Context)
    (duration : Int) (status : String) (i : Nat) (b : ℚ)
    (hb : pluginParsingResponseDurationSecondsOpts.Buckets.get? i = some b) :
    ∃ m1, UpdatePluginParsingResponseDurationSeconds m ctx duration status = .ok m1 ∧
      ((duration : ℚ) / 1000000000 ≤ b →
        seriesBucket m1 [status, "queryData"] i = seriesBucket m [status, "queryData"] i + 1) ∧
      (b < (duration : ℚ) / 1000000000 →
        seriesBucket m1 [status, "queryData"] i = seriesBucket m [status, "queryData"] i) := by
  refine ⟨_, Inv_Update (Reachable_inv hm) ctx duration status, ?_, ?_⟩
  · intro hle
    have := bucket_after (Reachable_inv hm) ctx duration status i b hb
    rw [if_pos hle] at this
    exact this
  · intro hlt
    have := bucket_after (Reachable_inv hm) ctx duration status i b hb
    rw [if_neg (not_le.mpr hlt)] at this
    exact this

/-- Witness of C2: 12 s on the fresh vector, status `error`, no trace: the bucket of 25
counts one observation, the bucket of 10 none. -/
theorem bucket_counts_grow_witness :
    Reachable pluginParsingResponseDurationSeconds ∧
    pluginParsingResponseDurationSecondsOpts.Buckets.get? 16 = some 25 ∧
    pluginParsingResponseDurationSecondsOpts.Buckets.get? 15 = some 10 ∧
    (∃ m1, UpdatePluginParsingResponseDurationSeconds pluginParsingResponseDurationSeconds
        { span := none } 12000000000 "error" = .ok m1 ∧
      seriesBucket m1 ["error", "queryData"] 16 = 1) ∧
    (∃ m1, UpdatePluginParsingResponseDurationSeconds pluginParsingResponseDurationSeconds
        { span := none } 12000000000 "error" = .ok m1 ∧
      seriesBucket m1 ["error", "queryData"] 15 = 0) := by
  refine ⟨Reachable.init, rfl, rfl, ?_, ?_⟩
  · obtain ⟨m1, h1, h2, _⟩ := bucket_counts_grow pluginParsingResponseDurationSeconds
      Reachable.init { span := none } 12000000000 "error" 16 25 rfl
    exact ⟨m1, h1, by rw [h2 (by norm_num)]; rfl⟩
  · obtain ⟨m1, h1, _, h3⟩ := bucket_counts_grow pluginParsingResponseDurationSeconds
      Reachable.init { span := none } 12000000000 "error" 15 10 rfl
    exact ⟨m1, h1, by rw [h3 (by norm_num)]; rfl⟩

/-- C3: in every reachable state, when the trace identifier `t` of the context is not
empty, the call leaves in the bucket the observation falls into an exemplar with the
observed value and exactly the label `traceID = t`; when it is empty, every exemplar slot
of the series is as it was before the call. -/
theorem exemplar_follows_trace (m : HistogramVec) (hm : Reachable m) (ctx : Context)
    (duration : Int) (status : String) :
    ∃ m1, UpdatePluginParsingResponseDurationSeconds m ctx duration status = .ok m1 ∧
      (TraceIDFromContext ctx true ≠ "" →
        seriesExemplar m1 [status, "queryData"]
            (findBucket pluginParsingResponseDurationSecondsOpts.Buckets (Seconds duration)) =
          some { Value := Seconds duration,
                 Labels := [("traceID", TraceIDFromContext ctx true)] }) ∧
      (TraceIDFromContext ctx true = "" →
        ∀ i, seriesExemplar m1 [status, "queryData"] i =
          seriesExemplar m [status, "queryData"] i) :=
  ⟨_, Inv_Update (Reachable_inv hm) ctx duration status,
    fun ht => exemplar_after_traced (Reachable_inv hm) ctx duration status ht,
    fun ht i => exemplar_after_untraced m ctx duration status ht i⟩

/-- Witness of C3: a sampled span with trace `abc123`, 30 ms, on the fresh vector. -/
theorem exemplar_follows_trace_witness :
    Reachable pluginParsingResponseDurationSeconds ∧
    TraceIDFromContext { span := some { TraceID := "abc123", Sampled := true } } true ≠ "" ∧
    ∃ m1, UpdatePluginParsingResponseDurationSeconds pluginParsingResponseDurationSeconds
        { span := some { TraceID := "abc123", Sampled := true } } 30000000 "ok" = .ok m1 ∧
      seriesExemplar m1 ["ok", "queryData"]
          (findBucket pluginParsingResponseDurationSecondsOpts.Buckets (Seconds 30000000)) =
        some { Value := Seconds 30000000, Labels := [("traceID", "abc123")] } := by
  have ht : TraceIDFromContext { span := some { TraceID := "abc123", Sampled := true } } true
      ≠ "" := by decide
  obtain ⟨m1, h1, h2, _⟩ := exemplar_follows_trace pluginParsingResponseDurationSeconds
    Reachable.init { span := some { TraceID := "abc123", Sampled := true } } 30000000 "ok"
  exact ⟨Reachable.init, ht, m1, h1, h2 ht⟩


/-- C5, as the code has it: on the fresh vector, 30 ms with status `ok` and trace `abc123`
gives count 1 and sum 0.03; the observation falls into the bucket of 0.03, which is the
first configured boundary that is at least 0.03 (the one before it is 0.02); the cumulative
counts of the buckets of 0.03 and 0.04 are 1 and that of 0.02 is 0, and the exemplar with
`traceID = abc123` is held by the bucket of 0.03. -/
theorem scenario_thirty_milliseconds :
    ∃ m1, UpdatePluginParsingResponseDurationSeconds pluginParsingResponseDurationSeconds
        { span := some { TraceID := "abc123", Sampled := true } } 30000000 "ok" = .ok m1 ∧
      seriesCount m1 ["ok", "queryData"] = 1 ∧
      seriesSum m1 ["ok", "queryData"] = 0.03 ∧
      findBucket pluginParsingResponseDurationSecondsOpts.Buckets (Seconds 30000000) = 6 ∧
      pluginParsingResponseDurationSecondsOpts.Buckets.get? 6 = some 0.03 ∧
      pluginParsingResponseDurationSecondsOpts.Buckets.get? 5 = some 0.02 ∧
      seriesBucket m1 ["ok", "queryData"] 5 = 0 ∧
      seriesBucket m1 ["ok", "queryData"] 6 = 1 ∧
      seriesBucket m1 ["ok", "queryData"] 7 = 1 ∧
      seriesExemplar m1 ["ok", "queryData"] 6 =
        some { Value := 0.03, Labels := [("traceID", "abc123")] } := by
  have hs : Seconds 30000000 = 0.03 := by norm_num [Seconds_eq]
  have hf : findBucket pluginParsingResponseDurationSecondsOpts.Buckets (Seconds 30000000)
      = 6 := by
    rw [hs]; norm_num [findBucket, pluginParsingResponseDurationSecondsOpts]
  have ht : TraceIDFromContext { span := some { TraceID := "abc123", Sampled := true } } true
      = "abc123" := by decide
  refine ⟨_, Inv_Update Inv_init _ 30000000 "ok", ?_, ?_, hf, rfl, rfl, ?_, ?_, ?_, ?_⟩
  · rw [count_after]; rfl
  · rw [sum_after]
    norm_num [seriesSum, pluginParsingResponseDurationSeconds, NewHistogramVec]
  · rw [bucket_after Inv_init _ _ _ 5 0.02 rfl]
    norm_num [seriesBucket, pluginParsingResponseDurationSeconds, NewHistogramVec]
  · rw [bucket_after Inv_init _ _ _ 6 0.03 rfl]
    norm_num [seriesBucket, pluginParsingResponseDurationSeconds, NewHistogramVec]
  · rw [bucket_after Inv_init _ _ _ 7 0.04 rfl]
    norm_num [seriesBucket, pluginParsingResponseDurationSeconds, NewHistogramVec]
  · have := exemplar_after_traced Inv_init
      { span := some { TraceID := "abc123", Sampled := true } } 30000000 "ok" (by rw [ht]; decide)
    rw [hf, hs, ht] at this
    exact this

/-- Counterexample to C5 as stated: in that scenario the first configured boundary that is
at least 0.03 is 0.03 and not 0.04, and the bucket of 0.04 holds no exemplar. -/
theorem scenario_bucket_is_not_four_hundredths :
    ∃ m1, UpdatePluginParsingResponseDurationSeconds pluginParsingResponseDurationSeconds
        { span := some { TraceID := "abc123", Sampled := true } } 30000000 "ok" = .ok m1 ∧
      pluginParsingResponseDurationSecondsOpts.Buckets.get?
        (findBucket pluginParsingResponseDurationSecondsOpts.Buckets (Seconds 30000000)) ≠
          some 0.04 ∧
      pluginParsingResponseDurationSecondsOpts.Buckets.get? 7 = some 0.04 ∧
      seriesExemplar m1 ["ok", "queryData"] 7 = none := by
  have hs : Seconds 30000000 = 0.03 := by norm_num [Seconds_eq]
  have hf : findBucket pluginParsingResponseDurationSecondsOpts.Buckets (Seconds 30000000)
      = 6 := by
    rw [hs]; norm_num [findBucket, pluginParsingResponseDurationSecondsOpts]
  refine ⟨_, Inv_Update Inv_init _ 30000000 "ok", ?_, rfl, ?_⟩
  · rw [hf]
    norm_num [pluginParsingResponseDurationSecondsOpts]
  · rw [exemplar_after_elsewhere Inv_init _ _ _ 7 (by rw [hf]; decide)]
    rfl


/-- C6: the configured bucket boundaries are, as exact rationals, the 17 values
1/1000, 1/400, 1/200, 3/400, 1/100, 1/50, 3/100, 1/25, 1/20, 3/40, 1/10, 1/4, 1/2, 1, 5,
10, 25; each is smaller than the next, all are positive, and no two are equal. -/
theorem buckets_strictly_increasing_positive :
    pluginParsingResponseDurationSecondsOpts.Buckets =
      [1/1000, 1/400, 1/200, 3/400, 1/100, 1/50, 3/100, 1/25, 1/20, 3/40, 1/10, 1/4, 1/2,
        1, 5, 10, 25] ∧
    pluginParsingResponseDurationSecondsOpts.Buckets.Chain' (· < ·) ∧
    pluginParsingResponseDurationSecondsOpts.Buckets.Pairwise (· < ·) ∧
    (∀ b ∈ pluginParsingResponseDurationSecondsOpts.Buckets, 0 < b) ∧
    pluginParsingResponseDurationSecondsOpts.Buckets.length = 17 ∧
    pluginParsingResponseDurationSecondsOpts.Buckets.Nodup := by
  refine ⟨?_, ?_, Buckets_pairwise, ?_, rfl, ?_⟩
  · norm_num [pluginParsingResponseDurationSecondsOpts]
  · exact List.Pairwise.chain' Buckets_pairwise
  · intro b hb
    norm_num [pluginParsingResponseDurationSecondsOpts] at hb
    rcases hb with h | h | h | h | h | h | h | h | h | h | h | h | h | h | h | h | h <;>
      rw [h] <;> norm_num
  · exact Buckets_pairwise.imp (fun h => ne_of_lt h)

/-- C7: in every reachable state the call passes `WithLabelValues` exactly two values, as
many as there are label names; paired with the names in their declared order they read
`status = s`, `endpoint = queryData`; the look-up does not fail; the series of that
assignment gets the observation; any series the call changes has exactly that assignment;
and the series with the two values swapped is untouched when `s` is not `queryData`. -/
theorem records_into_status_endpoint (m : HistogramVec) (hm : Reachable m) (ctx : Context)
    (duration : Int) (s : String) :
    [s, EndpointQueryData].length = m.labelNames.length ∧
    m.labelNames = ["status", "endpoint"] ∧
    m.labelPairs [s, EndpointQueryData] = [("status", s), ("endpoint", "queryData")] ∧
    (∃ r, m.WithLabelValues [s, EndpointQueryData] = .ok r) ∧
    ∃ m1, UpdatePluginParsingResponseDurationSeconds m ctx duration s = .ok m1 ∧
      seriesCount m1 [s, "queryData"] = seriesCount m [s, "queryData"] + 1 ∧
      (∀ lvs, m1.series lvs ≠ m.series lvs →
        m1.labelPairs lvs = [("status", s), ("endpoint", "queryData")]) ∧
      (s ≠ "queryData" → m1.series ["queryData", s] = m.series ["queryData", s]) := by
  have hl := (Reachable_inv hm).labels
  have hl2 : [s, EndpointQueryData].length = m.labelNames.length := by rw [hl]; rfl
  obtain ⟨w, hw, _⟩ := WithLabelValues_eq m [s, EndpointQueryData] hl2
  refine ⟨hl2, hl, by rw [HistogramVec.labelPairs, hl]; rfl, ⟨_, hw⟩, _,
    Inv_Update (Reachable_inv hm) ctx duration s, count_after m ctx duration s, ?_, ?_⟩
  · intro lvs hne
    have hk : lvs = [s, EndpointQueryData] := by
      by_contra hk
      exact hne (recorded_series_other m ctx duration s lvs hk)
    rw [hk, HistogramVec.labelPairs, (Inv_recorded (Reachable_inv hm) ctx duration s).labels]
    rfl
  · intro hs
    apply recorded_series_other
    intro hk
    injection hk with h1 h2
    exact hs h1.symm

/-- Witness of C7: the first call on the fresh vector, with status `ok`. -/
theorem records_into_status_endpoint_witness :
    Reachable pluginParsingResponseDurationSeconds ∧
    ∃ m1, UpdatePluginParsingResponseDurationSeconds pluginParsingResponseDurationSeconds
        { span := none } 30000000 "ok" = .ok m1 ∧
      seriesCount m1 ["ok", "queryData"] = 1 ∧
      m1.series ["queryData", "ok"] = none := by
  obtain ⟨_, _, _, _, m1, h1, h2, _, h4⟩ := records_into_status_endpoint
    pluginParsingResponseDurationSeconds Reachable.init { span := none } 30000000 "ok"
  exact ⟨Reachable.init, m1, h1, by rw [h2]; rfl, by rw [h4 (by decide)]; rfl⟩

/-- C10: in every reachable state the call returns normally, every series with a label
assignment other than `(status, queryData)` is exactly as before (count, sum, counters and
exemplars), the definition of the metric (options and label names) is as before, the
call creates no series other than that one, and every series that exists after the call
has the endpoint `queryData`. -/
theorem other_series_untouched (m : HistogramVec) (hm : Reachable m) (ctx : Context)
    (duration : Int) (s : String) :
    ∃ m1, UpdatePluginParsingResponseDurationSeconds m ctx duration s = .ok m1 ∧
      (∀ lvs, lvs ≠ [s, "queryData"] → m1.series lvs = m.series lvs) ∧
      m1.opts = m.opts ∧ m1.labelNames = m.labelNames ∧
      m1.opts = pluginParsingResponseDurationSecondsOpts ∧
      m1.labelNames = ["status", "endpoint"] ∧
      (∀ lvs o, m1.series lvs = some o → ∃ s1, lvs = [s1, "queryData"]) :=
  ⟨_, Inv_Update (Reachable_inv hm) ctx duration s,
    fun lvs hk => recorded_series_other m ctx duration s lvs hk,
    rfl, rfl, (Inv_recorded (Reachable_inv hm) ctx duration s).opts, (Inv_recorded (Reachable_inv hm) ctx duration s).labels,
    fun lvs o hs => ((Inv_recorded (Reachable_inv hm) ctx duration s).wf lvs o hs).1⟩


/-- Witness of C10: after a call with status `error` (12 s) the series `(error, queryData)`
exists with one observation and sum 12; a following call with status `ok` leaves that
series exactly as it was. -/
theorem other_series_untouched_witness :
    ∃ m0, UpdatePluginParsingResponseDurationSeconds pluginParsingResponseDurationSeconds
        { span := none } 12000000000 "error" = .ok m0 ∧
      Reachable m0 ∧
      seriesCount m0 ["error", "queryData"] = 1 ∧
      seriesSum m0 ["error", "queryData"] = 12 ∧
      ∃ m1, UpdatePluginParsingResponseDurationSeconds m0
          { span := some { TraceID := "abc123", Sampled := true } } 30000000 "ok" = .ok m1 ∧
        m1.series ["error", "queryData"] = m0.series ["error", "queryData"] ∧
        seriesCount m1 ["error", "queryData"] = 1 ∧
        seriesSum m1 ["error", "queryData"] = 12 ∧
        seriesCount m1 ["ok", "queryData"] = 1 := by
  have h0 := Inv_Update Inv_init { span := none } 12000000000 "error"
  have hr : Reachable (recorded pluginParsingResponseDurationSeconds { span := none }
      12000000000 "error") := Reachable.step _ _ _ Reachable.init h0
  have hc : seriesCount (recorded pluginParsingResponseDurationSeconds { span := none }
      12000000000 "error") ["error", "queryData"] = 1 := by
    rw [count_after]; rfl
  have hs : seriesSum (recorded pluginParsingResponseDurationSeconds { span := none }
      12000000000 "error") ["error", "queryData"] = 12 := by
    rw [sum_after]
    norm_num [seriesSum, pluginParsingResponseDurationSeconds, NewHistogramVec]
  obtain ⟨m1, h1, h2, _⟩ := other_series_untouched _ hr
    { span := some { TraceID := "abc123", Sampled := true } } 30000000 "ok"
  have he : m1.series ["error", "queryData"] =
      (recorded pluginParsingResponseDurationSeconds { span := none } 12000000000
        "error").series ["error", "queryData"] := h2 _ (by decide)
  have hk : seriesCount m1 ["ok", "queryData"] = 1 := by
    have h3 := h1
    rw [Inv_Update (Reachable_inv hr)] at h3
    injection h3 with h3
    rw [← h3, count_after]
    simp [seriesCount, recorded, HistogramVec.store, pluginParsingResponseDurationSeconds,
      NewHistogramVec]
  refine ⟨_, h0, hr, hc, hs, m1, h1, he, ?_, ?_, hk⟩
  · unfold seriesCount at hc ⊢
    rw [he]; exact hc
  · unfold seriesSum at hs ⊢
    rw [he]; exact hs

/-! ## float64 rounding -/

theorem roundHalfEven_of_lt (q : ℚ) (f : ℤ) (h0 : (f : ℚ) ≤ q) (h1 : q - f < 1 / 2) :
    roundHalfEven q = f := by
  have hf : ⌊q⌋ = f := by
    rw [Int.floor_eq_iff]
    exact ⟨h0, by linarith⟩
  unfold roundHalfEven
  rw [hf, if_pos h1]

theorem roundHalfEven_of_gt (q : ℚ) (f : ℤ) (h0 : 1 / 2 < q - f) (h1 : q < f + 1) :
    roundHalfEven q = f + 1 := by
  have hf : ⌊q⌋ = f := by
    rw [Int.floor_eq_iff]
    exact ⟨by linarith, h1⟩
  unfold roundHalfEven
  rw [hf, if_neg (by linarith), if_pos h0]

theorem roundHalfEven_of_tie (q : ℚ) (f : ℤ) (h : q - f = 1 / 2) :
    roundHalfEven q = if f % 2 = 0 then f else f + 1 := by
  have hf : ⌊q⌋ = f := by
    rw [Int.floor_eq_iff]
    exact ⟨by linarith, by linarith⟩
  unfold roundHalfEven
  rw [hf, if_neg (by linarith), if_neg (by linarith)]

theorem abs_roundHalfEven_sub_le (q : ℚ) : |(roundHalfEven q : ℚ) - q| ≤ 1 / 2 := by
  have h1 := Int.floor_le q
  have h2 := Int.lt_floor_add_one q
  unfold roundHalfEven
  rw [abs_le]
  split
  · constructor <;> linarith
  · split
    · push_cast; constructor <;> linarith
    · split
      · constructor <;> linarith
      · push_cast; constructor <;> linarith

theorem float64Exponent_of (q : ℚ) (k : ℤ) (hk : -1022 ≤ k) (h1 : (2 : ℚ) ^ k ≤ |q|)
    (h2 : |q| < (2 : ℚ) ^ (k + 1)) : float64Exponent q = k - 52 := by
  have hpos : 0 < |q| := lt_of_lt_of_le (by positivity) h1
  have hlog : Int.log 2 |q| = k := by
    have a : k ≤ Int.log 2 |q| :=
      (Int.zpow_le_iff_le_log (by norm_num) hpos).mp (by exact_mod_cast h1)
    have b : Int.log 2 |q| < k + 1 :=
      (Int.lt_zpow_iff_log_lt (by norm_num) hpos).mp (by exact_mod_cast h2)
    omega
  unfold float64Exponent
  rw [hlog]
  omega

theorem float64_eq_of (q : ℚ) (k m : ℤ) (hk : -1022 ≤ k) (h1 : (2 : ℚ) ^ k ≤ |q|)
    (h2 : |q| < (2 : ℚ) ^ (k + 1)) (hm : roundHalfEven (q / 2 ^ (k - 52)) = m) :
    float64 q = m * 2 ^ (k - 52) := by
  unfold float64
  rw [float64Exponent_of q k hk h1 h2, hm]

theorem float64_zero : float64 0 = 0 := by
  simp [float64, roundHalfEven]

/-- The rounding error of one float64 operation is at most half a unit in the last place. -/
theorem abs_float64_sub_le (q : ℚ) : |float64 q - q| ≤ 2 ^ float64Exponent q / 2 := by
  have hp : (0 : ℚ) < 2 ^ float64Exponent q := by positivity
  have h := abs_roundHalfEven_sub_le (q / 2 ^ float64Exponent q)
  have e : float64 q - q =
      ((roundHalfEven (q / 2 ^ float64Exponent q) : ℚ) - q / 2 ^ float64Exponent q) *
        2 ^ float64Exponent q := by
    unfold float64
    field_simp
  rw [e, abs_mul, abs_of_pos hp]
  calc |(roundHalfEven (q / 2 ^ float64Exponent q) : ℚ) - q / 2 ^ float64Exponent q| *
        2 ^ float64Exponent q ≤ 1 / 2 * 2 ^ float64Exponent q :=
        mul_le_mul_of_nonneg_right h hp.le
    _ = 2 ^ float64Exponent q / 2 := by ring

theorem float64_tenth : float64 (1 / 10) = 3602879701896397 / 36028797018963968 := by
  rw [float64_eq_of (1 / 10) (-4) 7205759403792794 (by norm_num) (by norm_num [abs_of_pos])
    (by norm_num [abs_of_pos])
    (roundHalfEven_of_gt _ 7205759403792793 (by norm_num) (by norm_num))]
  norm_num

theorem float64_fifth : float64 (1 / 5) = 3602879701896397 / 18014398509481984 := by
  rw [float64_eq_of (1 / 5) (-3) 7205759403792794 (by norm_num) (by norm_num [abs_of_pos])
    (by norm_num [abs_of_pos])
    (roundHalfEven_of_gt _ 7205759403792793 (by norm_num) (by norm_num))]
  norm_num

theorem float64_three_tenths : float64 (3 / 10) = 5404319552844595 / 18014398509481984 := by
  rw [float64_eq_of (3 / 10) (-2) 5404319552844595 (by norm_num) (by norm_num [abs_of_pos])
    (by norm_num [abs_of_pos])
    (roundHalfEven_of_lt _ 5404319552844595 (by norm_num) (by norm_num))]
  norm_num

theorem float64_of_tenth : float64 (3602879701896397 / 36028797018963968) =
    3602879701896397 / 36028797018963968 := by
  rw [float64_eq_of _ (-4) 7205759403792794 (by norm_num) (by norm_num [abs_of_pos])
    (by norm_num [abs_of_pos])
    (roundHalfEven_of_lt _ 7205759403792794 (by norm_num) (by norm_num))]
  norm_num

theorem float64_of_fifth : float64 (3602879701896397 / 18014398509481984) =
    3602879701896397 / 18014398509481984 := by
  rw [float64_eq_of _ (-3) 7205759403792794 (by norm_num) (by norm_num [abs_of_pos])
    (by norm_num [abs_of_pos])
    (roundHalfEven_of_lt _ 7205759403792794 (by norm_num) (by norm_num))]
  norm_num

theorem float64_tenth_add_fifth :
    float64 (3602879701896397 / 36028797018963968 + 3602879701896397 / 18014398509481984) =
      1351079888211149 / 4503599627370496 := by
  rw [float64_eq_of _ (-2) 5404319552844596 (by norm_num) (by norm_num [abs_of_pos])
    (by norm_num [abs_of_pos])
    ((roundHalfEven_of_tie _ 5404319552844595 (by norm_num)).trans (by norm_num))]
  norm_num

theorem float64_hundred_million : float64 100000000 = 100000000 := by
  rw [float64_eq_of 100000000 26 6710886400000000 (by norm_num) (by norm_num [abs_of_pos])
    (by norm_num [abs_of_pos])
    (roundHalfEven_of_lt _ 6710886400000000 (by norm_num) (by norm_num))]
  norm_num

theorem float64_two_hundred_million : float64 200000000 = 200000000 := by
  rw [float64_eq_of 200000000 27 6710886400000000 (by norm_num) (by norm_num [abs_of_pos])
    (by norm_num [abs_of_pos])
    (roundHalfEven_of_lt _ 6710886400000000 (by norm_num) (by norm_num))]
  norm_num

theorem machine_Seconds_tenth :
    Machine.Seconds 100000000 = 3602879701896397 / 36028797018963968 := by
  have h1 : Int.tdiv 100000000 Second = 0 := by decide
  have h2 : Int.tmod 100000000 Second = 100000000 := by decide
  unfold Machine.Seconds
  rw [h1, h2]
  norm_num only [Int.cast_zero, Int.cast_ofNat, float64_zero, float64_hundred_million, zero_add]
  rw [float64_tenth, float64_of_tenth]

theorem machine_Seconds_fifth :
    Machine.Seconds 200000000 = 3602879701896397 / 18014398509481984 := by
  have h1 : Int.tdiv 200000000 Second = 0 := by decide
  have h2 : Int.tmod 200000000 Second = 200000000 := by decide
  unfold Machine.Seconds
  rw [h1, h2]
  norm_num only [Int.cast_zero, Int.cast_ofNat, float64_zero, float64_two_hundred_million,
    zero_add]
  rw [float64_fifth, float64_of_fifth]


/-! ## One call in the machine reading -/

theorem machine_Update_eq (m : HistogramVec) (ctx : Context) (duration : Int)
    (status : String) (hl : m.labelNames.length = 2)
    (hc : (m.obtained [status, EndpointQueryData]).exemplarObserver = true ∨
      TraceIDFromContext ctx true = "") :
    Machine.UpdatePluginParsingResponseDurationSeconds m ctx duration status =
      .ok (Machine.recorded m ctx duration status) := by
  obtain ⟨m1, h1, h2⟩ := WithLabelValues_eq m [status, EndpointQueryData] (by simp [hl])
  unfold Machine.UpdatePluginParsingResponseDurationSeconds Machine.recorded
  rw [h1]
  simp only [h2]
  by_cases ht : TraceIDFromContext ctx true = ""
  · simp [ht]
  · rcases hc with hc | hc
    · simp [ht, hc]
    · exact absurd hc ht

theorem machine_Inv_init : Machine.Inv Machine.pluginParsingResponseDurationSeconds :=
  ⟨rfl, fun lvs o h => by
    simp [Machine.pluginParsingResponseDurationSeconds, NewHistogramVec] at h⟩

theorem machine_Inv_obtained {m : HistogramVec} (hm : Machine.Inv m) (lvs : List String) :
    (m.obtained lvs).exemplarObserver = true := by
  unfold HistogramVec.obtained
  cases hs : m.series lvs with
  | none => rfl
  | some o => exact hm.capable lvs o hs

theorem machine_Inv_labelNames_length {m : HistogramVec} (hm : Machine.Inv m) :
    m.labelNames.length = 2 := by
  rw [hm.labels]; rfl

theorem machine_Inv_Update {m : HistogramVec} (hm : Machine.Inv m) (ctx : Context)
    (duration : Int) (status : String) :
    Machine.UpdatePluginParsingResponseDurationSeconds m ctx duration status =
      .ok (Machine.recorded m ctx duration status) :=
  machine_Update_eq m ctx duration status (machine_Inv_labelNames_length hm)
    (Or.inl (machine_Inv_obtained hm _))

theorem machine_Inv_recorded {m : HistogramVec} (hm : Machine.Inv m) (ctx : Context)
    (duration : Int) (status : String) : Machine.Inv (Machine.recorded m ctx duration status) := by
  refine ⟨hm.labels, ?_⟩
  intro lvs o hs
  unfold Machine.recorded HistogramVec.store at hs
  simp only at hs
  by_cases hk : lvs = [status, EndpointQueryData]
  · rw [if_pos hk] at hs
    injection hs with hs
    subst hs
    exact machine_Inv_obtained hm _
  · rw [if_neg hk] at hs
    exact hm.capable lvs o hs

theorem machine_Reachable_inv {m : HistogramVec} (hm : Machine.Reachable m) : Machine.Inv m := by
  induction hm with
  | init => exact machine_Inv_init
  | step ctx duration status _ hstep ih =>
    unfold Machine.UpdatePluginParsingResponseDurationSecondsBytes at hstep
    cases hd : Machine.decodeUTF8 status with
    | none =>
      rw [hd] at hstep
      exact Except.noConfusion hstep
    | some text =>
      rw [hd] at hstep
      simp only at hstep
      rw [machine_Inv_Update ih ctx duration (String.mk text)] at hstep
      injection hstep with hstep
      subst hstep
      exact machine_Inv_recorded ih ctx duration (String.mk text)

theorem machine_recorded_series_key (m : HistogramVec) (ctx : Context) (duration : Int)
    (status : String) :
    (Machine.recorded m ctx duration status).series [status, EndpointQueryData] =
      some { m.obtained [status, EndpointQueryData] with
        h := if TraceIDFromContext ctx true ≠ "" then
            Machine.ObserveWithExemplar (m.obtained [status, EndpointQueryData]).h
              (Machine.Seconds duration) [("traceID", TraceIDFromContext ctx true)]
          else Machine.Observe (m.obtained [status, EndpointQueryData]).h
            (Machine.Seconds duration) } := by
  simp [Machine.recorded, HistogramVec.store]

theorem machine_count_after (m : HistogramVec) (ctx : Context) (duration : Int)
    (status : String) :
    seriesCount (Machine.recorded m ctx duration status) [status, EndpointQueryData] =
      seriesCount m [status, EndpointQueryData] + 1 := by
  rw [seriesCount_obtained m]
  simp only [seriesCount, machine_recorded_series_key]
  split <;> simp [Machine.ObserveWithExemplar, Machine.Observe, Machine.observe,
    histogram.updateExemplar]

theorem machine_sum_after (m : HistogramVec) (ctx : Context) (duration : Int)
    (status : String) :
    seriesSum (Machine.recorded m ctx duration status) [status, EndpointQueryData] =
      float64 (seriesSum m [status, EndpointQueryData] + Machine.Seconds duration) := by
  rw [seriesSum_obtained m]
  simp only [seriesSum, machine_recorded_series_key]
  split <;> simp [Machine.ObserveWithExemplar, Machine.Observe, Machine.observe,
    histogram.updateExemplar]

theorem machine_Bytes_valid (m : HistogramVec) (ctx : Context) (duration : Int)
    (status : List Nat) (text : List Char) (hd : Machine.decodeUTF8 status = some text) :
    Machine.UpdatePluginParsingResponseDurationSecondsBytes m ctx duration status =
      Machine.UpdatePluginParsingResponseDurationSeconds m ctx duration (String.mk text) := by
  unfold Machine.UpdatePluginParsingResponseDurationSecondsBytes
  rw [hd]

theorem machine_Bytes_invalid (m : HistogramVec) (ctx : Context) (duration : Int)
    (status : List Nat) (hd : Machine.decodeUTF8 status = none) :
    Machine.UpdatePluginParsingResponseDurationSecondsBytes m ctx duration status =
      .error .invalidLabelValue := by
  unfold Machine.UpdatePluginParsingResponseDurationSecondsBytes
  rw [hd]


/-! ## The claims on the sum and on panics -/

/-- C1, as the code has it: in every reachable state, for every context and duration and
every status that is valid UTF-8, one call returns normally and raises the observation
count of the series `(status, queryData)` by exactly one; the sum of the series becomes the
float64 sum of the old sum and `Seconds duration`, which is within half a unit in the last
place of their exact sum; this holds with or without a trace identifier in the context, the
series after the call being the series before it with one `Observe` or one
`ObserveWithExemplar` of `Seconds duration` applied. -/
theorem update_count_and_rounded_sum (m : HistogramVec) (hm : Machine.Reachable m)
    (ctx : Context) (duration : Int) (status : List Nat) (text : List Char)
    (hd : Machine.decodeUTF8 status = some text) :
    ∃ m1, Machine.UpdatePluginParsingResponseDurationSecondsBytes m ctx duration status
        = .ok m1 ∧
      seriesCount m1 [String.mk text, "queryData"] =
        seriesCount m [String.mk text, "queryData"] + 1 ∧
      seriesSum m1 [String.mk text, "queryData"] =
        float64 (seriesSum m [String.mk text, "queryData"] + Machine.Seconds duration) ∧
      |seriesSum m1 [String.mk text, "queryData"] -
          (seriesSum m [String.mk text, "queryData"] + Machine.Seconds duration)| ≤
        2 ^ float64Exponent
          (seriesSum m [String.mk text, "queryData"] + Machine.Seconds duration) / 2 ∧
      ∃ o, m1.series [String.mk text, "queryData"] = some o ∧
        ((TraceIDFromContext ctx true = "" ∧
            o.h = Machine.Observe (m.obtained [String.mk text, "queryData"]).h
              (Machine.Seconds duration)) ∨
          (TraceIDFromContext ctx true ≠ "" ∧
            o.h = Machine.ObserveWithExemplar (m.obtained [String.mk text, "queryData"]).h
              (Machine.Seconds duration) [("traceID", TraceIDFromContext ctx true)])) := by
  rw [machine_Bytes_valid m ctx duration status text hd]
  refine ⟨_, machine_Inv_Update (machine_Reachable_inv hm) ctx duration (String.mk text),
    machine_count_after m ctx duration _, machine_sum_after m ctx duration _, ?_,
    _, machine_recorded_series_key m ctx duration _, ?_⟩
  · rw [machine_sum_after m ctx duration (String.mk text)]
    exact abs_float64_sub_le _
  · by_cases ht : TraceIDFromContext ctx true = ""
    · exact Or.inl ⟨ht, by simp [ht]⟩
    · exact Or.inr ⟨ht, by simp [ht]⟩

/-- Witness of C1: the first call on the fresh vector, 100 ms with status `ok` (bytes 111,
107); the sum is the float64 nearest to one tenth. -/
theorem update_count_and_rounded_sum_witness :
    Machine.Reachable Machine.pluginParsingResponseDurationSeconds ∧
    Machine.decodeUTF8 [111, 107] = some ['o', 'k'] ∧
    ∃ m1, Machine.UpdatePluginParsingResponseDurationSecondsBytes
        Machine.pluginParsingResponseDurationSeconds { span := none } 100000000 [111, 107]
          = .ok m1 ∧
      seriesCount m1 ["ok", "queryData"] = 1 ∧
      seriesSum m1 ["ok", "queryData"] = 3602879701896397 / 36028797018963968 := by
  have hd : Machine.decodeUTF8 [111, 107] = some ['o', 'k'] := by decide
  refine ⟨Machine.Reachable.init, hd, ?_⟩
  obtain ⟨m1, h1, h2, h3, _⟩ := update_count_and_rounded_sum
    Machine.pluginParsingResponseDurationSeconds Machine.Reachable.init { span := none }
    100000000 [111, 107] ['o', 'k'] hd
  refine ⟨m1, h1, ?_, ?_⟩
  · show seriesCount m1 [String.mk ['o', 'k'], "queryData"] = 1
    rw [h2]; rfl
  · show seriesSum m1 [String.mk ['o', 'k'], "queryData"] = _
    rw [h3, machine_Seconds_tenth]
    have h0 : seriesSum Machine.pluginParsingResponseDurationSeconds
        [String.mk ['o', 'k'], "queryData"] = 0 := rfl
    rw [h0, zero_add, float64_of_tenth]

/-- Counterexample to C1 as stated: on the fresh vector, a call with 100 ms and status `ok`
leaves the sum at the float64 of 0.1; the next call, with 200 ms, leaves it at
0.30000000000000004 (the float64 above 0.3), which is neither the sum before plus 2/10,
nor the sum before plus the float64 of 0.2, nor the float64 of 0.3. -/
theorem sum_of_tenth_and_fifth_is_rounded :
    ∃ m1 m2, Machine.UpdatePluginParsingResponseDurationSecondsBytes
        Machine.pluginParsingResponseDurationSeconds { span := none } 100000000 [111, 107]
          = .ok m1 ∧
      Machine.UpdatePluginParsingResponseDurationSecondsBytes m1 { span := none } 200000000
        [111, 107] = .ok m2 ∧
      seriesSum m1 ["ok", "queryData"] = 3602879701896397 / 36028797018963968 ∧
      seriesSum m2 ["ok", "queryData"] = 1351079888211149 / 4503599627370496 ∧
      seriesSum m2 ["ok", "queryData"] ≠
        seriesSum m1 ["ok", "queryData"] + ((200000000 : Int) : ℚ) / 1000000000 ∧
      seriesSum m2 ["ok", "queryData"] ≠
        seriesSum m1 ["ok", "queryData"] + Machine.Seconds 200000000 ∧
      seriesSum m2 ["ok", "queryData"] ≠ float64 (3 / 10) := by
  have hi := machine_Inv_init
  have hd : Machine.decodeUTF8 [111, 107] = some ['o', 'k'] := by decide
  have hb : ∀ m d, Machine.UpdatePluginParsingResponseDurationSecondsBytes m { span := none }
      d [111, 107] = Machine.UpdatePluginParsingResponseDurationSeconds m { span := none } d
        "ok" := fun m d => machine_Bytes_valid m _ d _ _ hd
  have h1 : seriesSum (Machine.recorded Machine.pluginParsingResponseDurationSeconds
      { span := none } 100000000 "ok") ["ok", "queryData"] =
      3602879701896397 / 36028797018963968 := by
    rw [machine_sum_after, machine_Seconds_tenth]
    have h0 : seriesSum Machine.pluginParsingResponseDurationSeconds ["ok", EndpointQueryData]
        = 0 := rfl
    rw [h0, zero_add, float64_of_tenth]
  have h2 : seriesSum (Machine.recorded (Machine.recorded
      Machine.pluginParsingResponseDurationSeconds { span := none } 100000000 "ok")
      { span := none } 200000000 "ok") ["ok", "queryData"] =
      1351079888211149 / 4503599627370496 := by
    rw [machine_sum_after, machine_Seconds_fifth]
    rw [show seriesSum (Machine.recorded Machine.pluginParsingResponseDurationSeconds
      { span := none } 100000000 "ok") ["ok", EndpointQueryData] =
      3602879701896397 / 36028797018963968 from h1, float64_tenth_add_fifth]
  refine ⟨_, _, (hb _ _).trans (machine_Inv_Update hi _ 100000000 "ok"),
    (hb _ _).trans (machine_Inv_Update (machine_Inv_recorded hi _ 100000000 "ok") _
      200000000 "ok"),
    h1, h2, ?_, ?_, ?_⟩
  · rw [h2, h1]; norm_num
  · rw [h2, h1, machine_Seconds_fifth]; norm_num
  · rw [h2, float64_three_tenths]; norm_num

/-- C4, as the code has it: in every reachable state, for every context and duration, a
call with a status that is valid UTF-8 returns normally and records the observation
(count plus one, the sum as in C1); a call with a status that is not valid UTF-8 panics;
and the observer obtained for a label set always supports exemplars, so that the type
assertion of the traced branch does not fail. -/
theorem update_returns_for_valid_status (m : HistogramVec) (ctx : Context) (duration : Int)
    (status : List Nat) :
    (∀ text, Machine.Reachable m → Machine.decodeUTF8 status = some text →
      ∃ m1, Machine.UpdatePluginParsingResponseDurationSecondsBytes m ctx duration status
          = .ok m1 ∧
        seriesCount m1 [String.mk text, "queryData"] =
          seriesCount m [String.mk text, "queryData"] + 1 ∧
        seriesSum m1 [String.mk text, "queryData"] =
          float64 (seriesSum m [String.mk text, "queryData"] + Machine.Seconds duration)) ∧
    (Machine.decodeUTF8 status = none →
      Machine.UpdatePluginParsingResponseDurationSecondsBytes m ctx duration status =
        .error .invalidLabelValue) ∧
    (Machine.Reachable m → ∀ lvs, (m.obtained lvs).exemplarObserver = true) := by
  refine ⟨?_, machine_Bytes_invalid m ctx duration status, ?_⟩
  · intro text hm hd
    rw [machine_Bytes_valid m ctx duration status text hd]
    exact ⟨_, machine_Inv_Update (machine_Reachable_inv hm) ctx duration (String.mk text),
      machine_count_after m ctx duration _, machine_sum_after m ctx duration _⟩
  · intro hm lvs
    exact machine_Inv_obtained (machine_Reachable_inv hm) lvs

/-- Witness of C4: on the fresh vector, with the trace `abc123` in the context, the status
`ok` (bytes 111, 107) is recorded, and the overlong sequence C0 80 is refused with a
panic. -/
theorem update_returns_for_valid_status_witness :
    Machine.Reachable Machine.pluginParsingResponseDurationSeconds ∧
    Machine.decodeUTF8 [111, 107] = some ['o', 'k'] ∧
    (∃ m1, Machine.UpdatePluginParsingResponseDurationSecondsBytes
        Machine.pluginParsingResponseDurationSeconds
        { span := some { TraceID := "abc123", Sampled := true } } 30000000 [111, 107] = .ok m1 ∧
      seriesCount m1 ["ok", "queryData"] = 1) ∧
    Machine.decodeUTF8 [192, 128] = none ∧
    Machine.UpdatePluginParsingResponseDurationSecondsBytes
        Machine.pluginParsingResponseDurationSeconds
        { span := some { TraceID := "abc123", Sampled := true } } 30000000 [192, 128] =
      .error .invalidLabelValue ∧
    (Machine.pluginParsingResponseDurationSeconds.obtained ["ok", "queryData"]).exemplarObserver
      = true := by
  have hd : Machine.decodeUTF8 [111, 107] = some ['o', 'k'] := by decide
  have hn : Machine.decodeUTF8 [192, 128] = none := by decide
  obtain ⟨m1, h1, h2, _⟩ := (update_returns_for_valid_status
    Machine.pluginParsingResponseDurationSeconds
    { span := some { TraceID := "abc123", Sampled := true } } 30000000 [111, 107]).1
    ['o', 'k'] Machine.Reachable.init hd
  have hc : seriesCount m1 ["ok", "queryData"] = 1 := by
    show seriesCount m1 [String.mk ['o', 'k'], "queryData"] = 1
    rw [h2]; rfl
  exact ⟨Machine.Reachable.init, hd, ⟨m1, h1, hc⟩, hn,
    (update_returns_for_valid_status Machine.pluginParsingResponseDurationSeconds
      { span := some { TraceID := "abc123", Sampled := true } } 30000000 [192, 128]).2.1 hn,
    (update_returns_for_valid_status Machine.pluginParsingResponseDurationSeconds
      { span := none } 0 []).2.2 Machine.Reachable.init _⟩

/-- Counterexample to C4 as stated: on the fresh vector, a call whose status is the single
byte FF, which is not valid UTF-8, does not return normally: it panics in
`WithLabelValues`. -/
theorem update_panics_on_invalid_status :
    Machine.decodeUTF8 [255] = none ∧
    Machine.UpdatePluginParsingResponseDurationSecondsBytes
        Machine.pluginParsingResponseDurationSeconds { span := none } 30000000 [255] =
      .error .invalidLabelValue :=
  ⟨by decide, machine_Bytes_invalid _ _ _ _ (by decide)⟩

end Instrumentation
